import Mathlib

/-!
Verification of the Similarity & Community Detection Engine of the
PopIn Event Networking project.

The Python services are shallowly embedded in Lean:

* attendee rows of the pandas DataFrame produced by
  `RecommendationEngine.get_event_attendees_data` become the `Attendee`
  structure (all text columns are materialised as `String`, with the
  `x or ''` defaulting of the source already applied, so the fields are
  total strings; `interests` and `goals` are the comma-joined tag strings
  exactly as stored in the DataFrame);
* floating point similarity scores become `ℚ` (every IEEE double is a
  rational number, and the engine only compares and sorts scores);
* the similarity matrix consumed by the ranker and the graph builder is an
  explicit parameter `sim : ℕ → ℕ → ℚ` indexed by DataFrame position, the
  way `similarity_matrix[i, j]` is consumed by the source;
* the cosine-similarity computation itself (`calculate_similarity_matrix`,
  which calls sklearn's `cosine_similarity`) is embedded separately over
  `ℝ`, since its values involve square roots.

Python dict/set iteration details: `dict` preserves insertion order, which
the embedding mirrors via first-occurrence order (`List.dedup`); `set`
iteration order is unspecified in Python, and the embedding fixes the
first-occurrence order of the underlying string — every property proved
below about data derived from a set is order-independent, so the proofs
are valid for any iteration order the Python runtime chooses.
-/

/-- One row of the attendee DataFrame built by
`RecommendationEngine.get_event_attendees_data`.  Missing DB values have
already been replaced by `''` / `0` by the source (`a.company or ''`,
`a.experience_years or 0`), so every field is total. -/
structure Attendee where
  user_id : ℤ
  name : String
  job_title : String
  company : String
  industry : String
  bio : String
  experience_years : ℤ
  interests : String
  goals : String
deriving DecidableEq, Repr

/-- The all-empty row, used only to totalise positional indexing
(`df.iloc[idx]` in the source is always called with `idx` in range). -/
def dA : Attendee :=
  { user_id := 0, name := "", job_title := "", company := "", industry := ""
    bio := "", experience_years := 0, interests := "", goals := "" }

instance : Inhabited Attendee := ⟨dA⟩

/-- Python `set(x.lower().split(', '))` with `discard('')`, as a list in
first-occurrence order: the case-folded tag set of a comma-joined tag
string. -/
def tagSet (s : String) : List String :=
  (((s.toLower).splitOn ", ").filter (fun t => t ≠ "")).dedup

/-- Python `list(interests1.intersection(interests2))[:3]` from
`_generate_recommendation_explanation` (set-iteration order fixed to
first occurrence). -/
def mutualInterests (u1 u2 : Attendee) : List String :=
  (((tagSet u1.interests).filter (fun t => t ∈ tagSet u2.interests))).take 3

/-- The four directional goal-complementarity checks of
`_generate_recommendation_explanation` (note the source token is
`'job search'`, with a space). -/
def complementaryGoals (u1 u2 : Attendee) : List String :=
  let g1 := tagSet u1.goals
  let g2 := tagSet u2.goals
  (if "learn" ∈ g1 ∧ "teach" ∈ g2 then ["Learning/Teaching match"] else []) ++
  (if "teach" ∈ g1 ∧ "learn" ∈ g2 then ["Teaching/Learning match"] else []) ++
  (if "hire" ∈ g1 ∧ "job search" ∈ g2 then ["Hiring/Job seeking match"] else []) ++
  (if "job search" ∈ g1 ∧ "hire" ∈ g2 then ["Job seeking/Hiring match"] else [])

/-- The `reasons` list accumulated by
`_generate_recommendation_explanation` before the fallback clause. -/
def baseReasons (u1 u2 : Attendee) : List String :=
  (if u1.industry ≠ "" ∧ u1.industry = u2.industry
    then ["Both work in " ++ u1.industry] else []) ++
  (if u1.company ≠ "" ∧ u1.company = u2.company
    then ["Both work at " ++ u1.company] else []) ++
  (if (u1.experience_years - u2.experience_years).natAbs ≤ 3
    then ["Similar experience levels"] else []) ++
  (if mutualInterests u1 u2 ≠ []
    then ["Shared interests: " ++ String.intercalate ", " ((mutualInterests u1 u2).take 2)]
    else []) ++
  (if complementaryGoals u1 u2 ≠ []
    then ["Complementary networking goals"] else [])

/-- The score-band fallback clause of `_generate_recommendation_explanation`. -/
def fallbackReason (score : ℚ) : String :=
  if 7/10 ≤ score then "Strong profile compatibility"
  else if 5/10 ≤ score then "Good profile match"
  else "Potential networking opportunity"

/-- The final `reasons` list of `_generate_recommendation_explanation`
(the fallback fires exactly when no structured clause did). -/
def explanationReasons (u1 u2 : Attendee) (score : ℚ) : List String :=
  if baseReasons u1 u2 = [] then [fallbackReason score] else baseReasons u1 u2

/-- Python `"; ".join(reasons)`: the reason string returned by
`_generate_recommendation_explanation`. -/
def explanationReason (u1 u2 : Attendee) (score : ℚ) : String :=
  String.intercalate "; " (explanationReasons u1 u2 score)

/-- Source `utils.helpers.calculate_recommendation_confidence`. -/
def calculate_recommendation_confidence (score : ℚ) : String :=
  if 8/10 ≤ score then "very_high"
  else if 6/10 ≤ score then "high"
  else if 4/10 ≤ score then "medium"
  else "low"

/-- One recommendation dictionary as assembled in
`_generate_user_recommendations`. -/
structure Rec where
  user_id : ℤ
  user_name : String
  recommended_user_id : ℤ
  recommended_user_name : String
  recommended_user_company : String
  recommended_user_title : String
  similarity_score : ℚ
  confidence_level : String
  reason : String
  mutual_interests : List String
  complementary_goals : List String
deriving DecidableEq, Repr

/-- The recommendation dictionary built for target position `uidx` and
candidate position `oidx` in `_generate_user_recommendations`. -/
def mkRec (df : List Attendee) (sim : ℕ → ℕ → ℚ) (uidx oidx : ℕ) : Rec :=
  let u := df.getD uidx dA
  let o := df.getD oidx dA
  { user_id := u.user_id
    user_name := u.name
    recommended_user_id := o.user_id
    recommended_user_name := o.name
    recommended_user_company := o.company
    recommended_user_title := o.job_title
    similarity_score := sim uidx oidx
    confidence_level := calculate_recommendation_confidence (sim uidx oidx)
    reason := explanationReason u o (sim uidx oidx)
    mutual_interests := mutualInterests u o
    complementary_goals := complementaryGoals u o }

/-- The candidate positions surviving the loop filter of
`_generate_user_recommendations`: every `other_idx != user_idx` with
`similarity_score > min_similarity_threshold`, in DataFrame order. -/
def candIdxs (n : ℕ) (sim : ℕ → ℕ → ℚ) (th : ℚ) (uidx : ℕ) : List ℕ :=
  (List.range n).filter (fun j => j ≠ uidx ∧ th < sim uidx j)

/-- The ordering realised by Python's stable
`recommendations.sort(key=lambda x: x['similarity_score'], reverse=True)`
on candidates generated in ascending position order: score strictly
descending, equal scores kept in ascending position order. -/
def rankRel (sim : ℕ → ℕ → ℚ) (uidx : ℕ) (i j : ℕ) : Prop :=
  sim uidx j < sim uidx i ∨ (sim uidx i = sim uidx j ∧ i ≤ j)

instance (sim : ℕ → ℕ → ℚ) (uidx : ℕ) : DecidableRel (rankRel sim uidx) :=
  fun i j => by unfold rankRel; infer_instance

/-- Source `RecommendationEngine._generate_user_recommendations`: filter the
target's row of the similarity matrix, sort stably by descending score
(a stable descending sort of candidates generated in ascending position
order is exactly a sort by the total lexicographic order `rankRel`),
and truncate to `max_recommendations`. -/
def _generate_user_recommendations (df : List Attendee) (sim : ℕ → ℕ → ℚ)
    (th : ℚ) (uidx maxRec : ℕ) : List Rec :=
  ((((candIdxs df.length sim th uidx).insertionSort (rankRel sim uidx))).map
    (mkRec df sim uidx)).take maxRec

/-- The generate-for-all branch of
`RecommendationEngine.generate_recommendations`. -/
def allUserRecs (df : List Attendee) (sim : ℕ → ℕ → ℚ) (th : ℚ) (maxRec : ℕ) :
    List Rec :=
  (List.range df.length).flatMap (fun i => _generate_user_recommendations df sim th i maxRec)

/-- Source `RecommendationEngine.generate_recommendations`, on the path where
feature construction and the similarity computation succeed (the matrix
is the parameter `sim`).  Note the source guard is the Python truthiness
test `if target_user_id:` — a target of `None` *and* a target equal to
`0` both take the generate-for-all branch — and a supplied positive
target absent from the batch (`df[df['user_id'] == target].index` empty)
returns `[]`.  `df.empty or len(df) < 2` returns `[]` up front. -/
def generate_recommendations (df : List Attendee) (sim : ℕ → ℕ → ℚ) (th : ℚ)
    (target : Option ℤ) (maxRec : ℕ) : List Rec :=
  if df.length < 2 then []
  else
    match target with
    | none => allUserRecs df sim th maxRec
    | some t =>
      if t = 0 then allUserRecs df sim th maxRec
      else
        match df.findIdx? (fun a => a.user_id = t) with
        | none => []
        | some idx => _generate_user_recommendations df sim th idx maxRec

/-!  ### Graph construction (`ClusteringService.create_network_graph`)  -/

/-- The `networkx.Graph` assembled by `create_network_graph`: node ids in
insertion order, and each undirected edge recorded once as the ordered
triple `(id_i, id_j, weight)` with `i < j`, the iteration order of the
source's double loop. -/
structure NGraph where
  nodes : List ℤ
  edges : List (ℤ × ℤ × ℚ)
deriving DecidableEq, Repr

/-- Source `ClusteringService.create_network_graph` on the path where feature
construction succeeds (the similarity matrix is the parameter `sim`):
a node per DataFrame row, and an edge for each pair `i < j` with
`similarity_matrix[i, j] > 0.3` (the hard-coded `similarity_threshold`),
weighted by the similarity.  Fewer than 2 attendees gives the empty
`nx.Graph()`. -/
def create_network_graph (df : List Attendee) (sim : ℕ → ℕ → ℚ) : NGraph :=
  if df.length < 2 then { nodes := [], edges := [] }
  else
    { nodes := df.map (fun a => a.user_id)
      edges := (List.range df.length).flatMap (fun i =>
        (((List.range df.length).filter (fun j => i < j))).filterMap (fun j =>
          if 3/10 < sim i j
          then some ((df.getD i dA).user_id, (df.getD j dA).user_id, sim i j)
          else none)) }

/-- The undirected edge `{a, b}` with weight `w` is present in the graph. -/
def hasEdgeW (G : NGraph) (a b : ℤ) (w : ℚ) : Prop :=
  (a, b, w) ∈ G.edges ∨ (b, a, w) ∈ G.edges

instance (G : NGraph) (a b : ℤ) (w : ℚ) : Decidable (hasEdgeW G a b w) := by
  unfold hasEdgeW; infer_instance

/-!  ### Cluster assembly and statistics (`ClusteringService`)  -/

/-- The distinct community ids of a community mapping (a Python dict
`user_id -> community_id`, embedded as its insertion-ordered item list),
in first-encounter order — the key order of the `clusters_dict` built by
`_create_clusters` and `_calculate_cluster_stats`. -/
def clusterIds (m : List (ℤ × ℕ)) : List ℕ :=
  (m.map (fun p => p.2)).dedup

/-- The members assigned to community `c`, in mapping order. -/
def clusterMembers (m : List (ℤ × ℕ)) (c : ℕ) : List ℤ :=
  (m.filter (fun p => p.2 = c)).map (fun p => p.1)

/-- One entry of the cluster list assembled by `_create_clusters`
(display-only member fields — name, company, degree, dominant industry,
the constant `cluster_strength` — are not needed by the claims and are
not modelled; `members` carries the user ids). -/
structure ClusterL where
  cluster_id : ℕ
  size : ℕ
  members : List ℤ
deriving DecidableEq, Repr

/-- Source `ClusteringService._create_clusters`: group the mapping by community
id (dict insertion order) and keep exactly the groups with
`len(members) >= min_cluster_size`, without renumbering. -/
def _create_clusters (m : List (ℤ × ℕ)) (min_cluster_size : ℕ) : List ClusterL :=
  (clusterIds m).filterMap (fun c =>
    let mem := clusterMembers m c
    if min_cluster_size ≤ mem.length
    then some { cluster_id := c, size := mem.length, members := mem }
    else none)

/-- Round half to even on `ℚ` (Python's `round` and `numpy.round`
banker's rounding). -/
def rhe (q : ℚ) : ℤ :=
  if q - Int.floor q < 1/2 then Int.floor q
  else if 1/2 < q - Int.floor q then Int.floor q + 1
  else if Even (Int.floor q) then Int.floor q else Int.floor q + 1

/-- Python `round(q, d)` with banker's rounding. -/
def roundTo (d : ℕ) (q : ℚ) : ℚ :=
  (rhe (q * 10 ^ d) : ℚ) / 10 ^ d

/-- Total edge weight `m = G.size(weight='weight')` used by
`networkx.algorithms.community.modularity`. -/
def edgeWeightSum (G : NGraph) : ℚ :=
  (G.edges.map (fun e => e.2.2)).sum

/-- Weighted degree of `v` (the graph has no self-loops: the builder only
creates edges between distinct positions of an id-distinct batch). -/
def degW (G : NGraph) (v : ℤ) : ℚ :=
  ((G.edges.filter (fun e => e.1 = v ∨ e.2.1 = v)).map (fun e => e.2.2)).sum

/-- Total weight of the edges internal to the node set `c`. -/
def inWeight (G : NGraph) (c : List ℤ) : ℚ :=
  ((G.edges.filter (fun e => e.1 ∈ c ∧ e.2.1 ∈ c)).map (fun e => e.2.2)).sum

/-- Library `networkx.community.is_partition`: every node belongs to exactly one
community. -/
def isPartition (G : NGraph) (communities : List (List ℤ)) : Prop :=
  ∀ v ∈ G.nodes, (communities.countP (fun c => v ∈ c)) = 1

instance (G : NGraph) (cs : List (List ℤ)) : Decidable (isPartition G cs) := by
  unfold isPartition; infer_instance

/-- Library `networkx.algorithms.community.modularity(G, communities)` with the
default `weight='weight'`: raises (`Except.error`) on a non-partition
(`NotAPartition`) and on a graph of total weight zero
(`ZeroDivisionError` from `1 / (2 * m) ** 2`); otherwise returns
`Σ_c (L_c / m - (D_c / (2m))²)`. -/
def nx_modularity (G : NGraph) (communities : List (List ℤ)) : Except Unit ℚ :=
  if ¬ isPartition G communities then Except.error ()
  else if edgeWeightSum G = 0 then Except.error ()
  else
    Except.ok ((communities.map (fun c =>
      inWeight G c / edgeWeightSum G
        - ((c.map (degW G)).sum / (2 * edgeWeightSum G)) ^ 2)).sum)

/-- The modularity value computed inside `_calculate_cluster_stats`:
`0.0` unless more than one community was detected, and any exception of
the `networkx` call is swallowed back to `0.0` by the bare `except`. -/
def modularityStat (G : NGraph) (m : List (ℤ × ℕ)) : ℚ :=
  let communities := (clusterIds m).map (clusterMembers m)
  if 1 < communities.length then
    match nx_modularity G communities with
    | Except.ok q => q
    | Except.error _ => 0
  else 0

/-- The statistics dictionary of `_calculate_cluster_stats`. -/
structure ClusterStats where
  total_nodes : ℕ
  total_edges : ℕ
  num_clusters : ℕ
  modularity : ℚ
  avg_cluster_size : ℚ
  largest_cluster_size : ℕ
  smallest_cluster_size : ℕ
deriving DecidableEq, Repr

/-- Source `ClusteringService._calculate_cluster_stats`: node/edge counts,
`len(set(mapping.values()))`, rounded modularity, and the min/max/mean
sizes of *all* detected communities (`cluster_sizes` is built from the
unfiltered grouping). -/
def _calculate_cluster_stats (G : NGraph) (m : List (ℤ × ℕ)) : ClusterStats :=
  let sizes := (clusterIds m).map (fun c => (clusterMembers m c).length)
  { total_nodes := G.nodes.length
    total_edges := G.edges.length
    num_clusters := (clusterIds m).length
    modularity := roundTo 3 (modularityStat G m)
    avg_cluster_size :=
      match sizes with
      | [] => 0
      | _ => roundTo 2 ((sizes.sum : ℚ) / (sizes.length : ℚ))
    largest_cluster_size := match sizes with | [] => 0 | h :: t => t.foldl max h
    smallest_cluster_size := match sizes with | [] => 0 | h :: t => t.foldl min h }

/-!  ### Cosine similarity (`RecommendationEngine.calculate_similarity_matrix`)

`sklearn.metrics.pairwise.cosine_similarity(X)` row-normalises `X`
(replacing a zero row norm by `1`, so zero rows stay zero) and returns
the Gram matrix of the normalised rows: entry `(i, j)` is
`dot(v_i, v_j) / (n_i * n_j)` with `n_k = 1` when `‖v_k‖ = 0` and
`n_k = ‖v_k‖` otherwise.  Feature vectors are embedded as rational lists
(every float is rational); the resulting similarity values live in `ℝ`
because of the square roots.  -/

/-- Dot product of two feature vectors. -/
def dotQ (v w : List ℚ) : ℚ := (List.zipWith (fun a b => a * b) v w).sum

/-- The row norm used by sklearn's normalisation, with the zero-norm
guard: `1` for a zero row, `‖v‖` otherwise. -/
noncomputable def safeNorm (v : List ℚ) : ℝ :=
  if dotQ v v = 0 then 1 else Real.sqrt ((dotQ v v : ℚ) : ℝ)

/-- One entry of `sklearn.metrics.pairwise.cosine_similarity`. -/
noncomputable def cosineSim (v w : List ℚ) : ℝ :=
  ((dotQ v w : ℚ) : ℝ) / (safeNorm v * safeNorm w)

/-- Source `RecommendationEngine.calculate_similarity_matrix` on a non-empty
feature matrix (`features.size == 0` short-circuits to an empty array in
the source). -/
noncomputable def calculate_similarity_matrix (features : List (List ℚ)) :
    List (List ℝ) :=
  features.map (fun v => features.map (fun w => cosineSim v w))

/-- Entry access `similarity_matrix[i][j]` (out-of-range reads default to
`0`; the source always indexes in range). -/
def simEntry (M : List (List ℝ)) (i j : ℕ) : ℝ := (M.getD i []).getD j 0

theorem dotQ_comm (v w : List ℚ) : dotQ v w = dotQ w v := by
  unfold dotQ
  rw [List.zipWith_comm_of_comm (fun a b => a * b) (fun a b => mul_comm a b)]

theorem dotQ_eq_sum (v w : List ℚ) :
    dotQ v w = ∑ i ∈ Finset.range (min v.length w.length),
      v.getD i 0 * w.getD i 0 := by
  induction v generalizing w with
  | nil => simp [dotQ]
  | cons a v ih =>
    cases w with
    | nil => simp [dotQ]
    | cons b w =>
      have h : min (a :: v).length (b :: w).length = min v.length w.length + 1 := by
        simp [Nat.succ_min_succ]
      rw [h, Finset.sum_range_succ']
      simp only [List.getD_cons_succ, List.getD_cons_zero]
      have : dotQ (a :: v) (b :: w) = a * b + dotQ v w := by
        simp [dotQ]
      rw [this, ih, add_comm]

theorem getD_nonneg (v : List ℚ) (hv : ∀ x ∈ v, 0 ≤ x) (i : ℕ) :
    0 ≤ v.getD i 0 := by
  by_cases h : i < v.length
  · rw [List.getD_eq_getElem v 0 h]
    exact hv _ (List.getElem_mem h)
  · rw [List.getD_eq_default v 0 (le_of_not_lt h)]

theorem dotQ_self_nonneg (v : List ℚ) : 0 ≤ dotQ v v := by
  rw [dotQ_eq_sum]
  exact Finset.sum_nonneg (fun i _ => mul_self_nonneg _)

theorem dotQ_nonneg (v w : List ℚ) (hv : ∀ x ∈ v, 0 ≤ x)
    (hw : ∀ x ∈ w, 0 ≤ x) : 0 ≤ dotQ v w := by
  rw [dotQ_eq_sum]
  exact Finset.sum_nonneg
    (fun i _ => mul_nonneg (getD_nonneg v hv i) (getD_nonneg w hw i))

theorem dotQ_eq_zero_left (v w : List ℚ) (h : dotQ v v = 0) : dotQ v w = 0 := by
  rw [dotQ_eq_sum] at h ⊢
  have hall : ∀ i ∈ Finset.range (min v.length v.length), v.getD i 0 * v.getD i 0 = 0 :=
    (Finset.sum_eq_zero_iff_of_nonneg (fun i _ => mul_self_nonneg _)).mp h
  refine Finset.sum_eq_zero (fun i hi => ?_)
  have hiv : i < v.length := lt_of_lt_of_le (Finset.mem_range.mp hi) (min_le_left _ _)
  have := hall i (Finset.mem_range.mpr (by simpa using hiv))
  have hz : v.getD i 0 = 0 := by
    rcases mul_self_eq_zero.mp this with h0
    exact h0
  rw [hz, zero_mul]

theorem dotQ_sq_le (v w : List ℚ) : dotQ v w ^ 2 ≤ dotQ v v * dotQ w w := by
  rw [dotQ_eq_sum v w, dotQ_eq_sum v v, dotQ_eq_sum w w]
  set n := min v.length w.length with hn
  have h1 : (∑ i ∈ Finset.range n, v.getD i 0 * w.getD i 0) ^ 2 ≤
      (∑ i ∈ Finset.range n, v.getD i 0 ^ 2) *
        ∑ i ∈ Finset.range n, w.getD i 0 ^ 2 :=
    Finset.sum_mul_sq_le_sq_mul_sq _ _ _
  have h2 : (∑ i ∈ Finset.range n, v.getD i 0 ^ 2) ≤
      ∑ i ∈ Finset.range (min v.length v.length), v.getD i 0 * v.getD i 0 := by
    simp only [min_self, ← sq]
    exact Finset.sum_le_sum_of_subset_of_nonneg
      (Finset.range_subset.mpr (min_le_left _ _))
      (fun i _ _ => sq_nonneg _)
  have h3 : (∑ i ∈ Finset.range n, w.getD i 0 ^ 2) ≤
      ∑ i ∈ Finset.range (min w.length w.length), w.getD i 0 * w.getD i 0 := by
    simp only [min_self, ← sq]
    exact Finset.sum_le_sum_of_subset_of_nonneg
      (Finset.range_subset.mpr (min_le_right _ _))
      (fun i _ _ => sq_nonneg _)
  calc (∑ i ∈ Finset.range n, v.getD i 0 * w.getD i 0) ^ 2
      ≤ (∑ i ∈ Finset.range n, v.getD i 0 ^ 2) *
          ∑ i ∈ Finset.range n, w.getD i 0 ^ 2 := h1
    _ ≤ _ := by
        apply mul_le_mul h2 h3 (Finset.sum_nonneg (fun i _ => sq_nonneg _))
        exact le_trans (Finset.sum_nonneg (fun i _ => sq_nonneg _)) h2

theorem safeNorm_pos (v : List ℚ) : 0 < safeNorm v := by
  unfold safeNorm
  split
  · exact one_pos
  · rename_i h
    have : (0 : ℚ) < dotQ v v := lt_of_le_of_ne (dotQ_self_nonneg v) (Ne.symm h)
    exact Real.sqrt_pos.mpr (by exact_mod_cast this)

theorem cosineSim_comm (v w : List ℚ) : cosineSim v w = cosineSim w v := by
  unfold cosineSim
  rw [dotQ_comm v w, mul_comm]

theorem cosineSim_nonneg (v w : List ℚ) (hv : ∀ x ∈ v, 0 ≤ x)
    (hw : ∀ x ∈ w, 0 ≤ x) : 0 ≤ cosineSim v w := by
  unfold cosineSim
  apply div_nonneg
  · exact_mod_cast dotQ_nonneg v w hv hw
  · exact le_of_lt (mul_pos (safeNorm_pos v) (safeNorm_pos w))

theorem cosineSim_zero_left (v w : List ℚ) (h : dotQ v v = 0) :
    cosineSim v w = 0 := by
  unfold cosineSim
  rw [dotQ_eq_zero_left v w h]
  simp

theorem cosineSim_zero_right (v w : List ℚ) (h : dotQ w w = 0) :
    cosineSim v w = 0 := by
  rw [cosineSim_comm]
  exact cosineSim_zero_left w v h

theorem cosineSim_le_one (v w : List ℚ) (hv : ∀ x ∈ v, 0 ≤ x)
    (hw : ∀ x ∈ w, 0 ≤ x) : cosineSim v w ≤ 1 := by
  by_cases h1 : dotQ v v = 0
  · rw [cosineSim_zero_left v w h1]; norm_num
  by_cases h2 : dotQ w w = 0
  · rw [cosineSim_zero_right v w h2]; norm_num
  unfold cosineSim safeNorm
  rw [if_neg h1, if_neg h2]
  have hvpos : (0 : ℝ) < ((dotQ v v : ℚ) : ℝ) := by
    exact_mod_cast lt_of_le_of_ne (dotQ_self_nonneg v) (Ne.symm h1)
  have hwpos : (0 : ℝ) < ((dotQ w w : ℚ) : ℝ) := by
    exact_mod_cast lt_of_le_of_ne (dotQ_self_nonneg w) (Ne.symm h2)
  rw [div_le_one (mul_pos (Real.sqrt_pos.mpr hvpos) (Real.sqrt_pos.mpr hwpos))]
  have hdnn : (0 : ℝ) ≤ ((dotQ v w : ℚ) : ℝ) := by
    exact_mod_cast dotQ_nonneg v w hv hw
  have hcs : ((dotQ v w : ℚ) : ℝ) ^ 2 ≤ ((dotQ v v : ℚ) : ℝ) * ((dotQ w w : ℚ) : ℝ) := by
    exact_mod_cast dotQ_sq_le v w
  calc ((dotQ v w : ℚ) : ℝ)
      = Real.sqrt (((dotQ v w : ℚ) : ℝ) ^ 2) := (Real.sqrt_sq hdnn).symm
    _ ≤ Real.sqrt (((dotQ v v : ℚ) : ℝ) * ((dotQ w w : ℚ) : ℝ)) :=
        Real.sqrt_le_sqrt hcs
    _ = Real.sqrt ((dotQ v v : ℚ) : ℝ) * Real.sqrt ((dotQ w w : ℚ) : ℝ) :=
        Real.sqrt_mul (le_of_lt hvpos) _

theorem cosineSim_self (v : List ℚ) (h : dotQ v v ≠ 0) : cosineSim v v = 1 := by
  unfold cosineSim safeNorm
  rw [if_neg h]
  have hnn : (0 : ℝ) ≤ ((dotQ v v : ℚ) : ℝ) := by
    exact_mod_cast dotQ_self_nonneg v
  rw [Real.mul_self_sqrt hnn]
  exact div_self (by exact_mod_cast h)

theorem getD_map {α β : Type} (f : α → β) (l : List α) (i : ℕ) (d : α)
    (d2 : β) (h : i < l.length) : (l.map f).getD i d2 = f (l.getD i d) := by
  rw [List.getD_eq_getElem (l.map f) d2 (by simpa using h), List.getElem_map,
    List.getD_eq_getElem l d h]

theorem simEntry_eq (features : List (List ℚ)) (i j : ℕ)
    (hi : i < features.length) (hj : j < features.length) :
    simEntry (calculate_similarity_matrix features) i j =
      cosineSim (features.getD i []) (features.getD j []) := by
  unfold simEntry calculate_similarity_matrix
  rw [getD_map (fun v => List.map (fun w => cosineSim v w) features) features i [] [] hi]
  rw [getD_map (fun w => cosineSim (features.getD i []) w) features j [] 0 hj]

/-- C1 (amended): for every batch of non-negative feature vectors the
similarity matrix of `calculate_similarity_matrix` is symmetric, has
every entry in `[0, 1]`, has diagonal entry `1.0` at every row whose
vector has non-zero norm, and has entry `0` (not NaN) at every pair —
the diagonal included — where either vector has zero norm. -/
theorem claim_C1_theorem (features : List (List ℚ))
    (hnn : ∀ v ∈ features, ∀ x ∈ v, 0 ≤ x) (i j : ℕ)
    (hi : i < features.length) (hj : j < features.length) :
    simEntry (calculate_similarity_matrix features) i j =
        simEntry (calculate_similarity_matrix features) j i ∧
    0 ≤ simEntry (calculate_similarity_matrix features) i j ∧
    simEntry (calculate_similarity_matrix features) i j ≤ 1 ∧
    (dotQ (features.getD i []) (features.getD i []) ≠ 0 →
      simEntry (calculate_similarity_matrix features) i i = 1) ∧
    ((dotQ (features.getD i []) (features.getD i []) = 0 ∨
        dotQ (features.getD j []) (features.getD j []) = 0) →
      simEntry (calculate_similarity_matrix features) i j = 0) := by
  have hvi : ∀ x ∈ features.getD i [], 0 ≤ x := by
    rw [List.getD_eq_getElem features [] hi]
    exact hnn _ (List.getElem_mem hi)
  have hvj : ∀ x ∈ features.getD j [], 0 ≤ x := by
    rw [List.getD_eq_getElem features [] hj]
    exact hnn _ (List.getElem_mem hj)
  rw [simEntry_eq features i j hi hj, simEntry_eq features j i hj hi,
    simEntry_eq features i i hi hi]
  exact ⟨cosineSim_comm _ _, cosineSim_nonneg _ _ hvi hvj,
    cosineSim_le_one _ _ hvi hvj, fun h => cosineSim_self _ h,
    fun h => h.elim (cosineSim_zero_left _ _) (cosineSim_zero_right _ _)⟩

/-- C1 counterexample: the claim promises *every* diagonal entry is
`1.0`, but for the legitimate non-negative feature batch `[[0], [1]]`
(an attendee with an all-empty profile and no experience next to a
non-empty one) sklearn's zero-norm guard makes `sim[0][0] = 0`, not
`1.0`. -/
theorem claim_C1_counterexample :
    (∀ v ∈ [[(0 : ℚ)], [1]], ∀ x ∈ v, 0 ≤ x) ∧
    simEntry (calculate_similarity_matrix [[(0 : ℚ)], [1]]) 0 0 = 0 ∧
    (0 : ℝ) ≠ 1 := by
  refine ⟨by decide, ?_, by norm_num⟩
  rw [simEntry_eq [[(0 : ℚ)], [1]] 0 0 (by norm_num) (by norm_num)]
  exact cosineSim_zero_left _ _ (of_decide_eq_true (by with_unfolding_all rfl))

/-- Witness for C1 at the concrete feature batch `[[1, 0], [1, 1]]`. -/
theorem claim_C1_witness :
    (∀ v ∈ [[(1 : ℚ), 0], [1, 1]], ∀ x ∈ v, 0 ≤ x) ∧
    (simEntry (calculate_similarity_matrix [[(1 : ℚ), 0], [1, 1]]) 0 1 =
        simEntry (calculate_similarity_matrix [[(1 : ℚ), 0], [1, 1]]) 1 0 ∧
      0 ≤ simEntry (calculate_similarity_matrix [[(1 : ℚ), 0], [1, 1]]) 0 1 ∧
      simEntry (calculate_similarity_matrix [[(1 : ℚ), 0], [1, 1]]) 0 1 ≤ 1 ∧
      (dotQ [(1 : ℚ), 0] [(1 : ℚ), 0] ≠ 0 →
        simEntry (calculate_similarity_matrix [[(1 : ℚ), 0], [1, 1]]) 0 0 = 1) ∧
      ((dotQ [(1 : ℚ), 0] [(1 : ℚ), 0] = 0 ∨ dotQ [(1 : ℚ), 1] [(1 : ℚ), 1] = 0) →
        simEntry (calculate_similarity_matrix [[(1 : ℚ), 0], [1, 1]]) 0 1 = 0)) :=
  ⟨by decide,
    claim_C1_theorem [[(1 : ℚ), 0], [1, 1]] (by decide) 0 1 (by norm_num) (by norm_num)⟩

/-!  ### The recommendation ranker: claims C2 and C3  -/

theorem mem_candIdxs (n : ℕ) (sim : ℕ → ℕ → ℚ) (th : ℚ) (uidx j : ℕ) :
    j ∈ candIdxs n sim th uidx ↔ j < n ∧ j ≠ uidx ∧ th < sim uidx j := by
  simp [candIdxs, List.mem_filter, List.mem_range, and_comm]

/-- Every recommendation in the ranker's output is the record of some
surviving candidate position. -/
theorem mem_gur (df : List Attendee) (sim : ℕ → ℕ → ℚ) (th : ℚ)
    (uidx maxRec : ℕ) (r : Rec)
    (hr : r ∈ _generate_user_recommendations df sim th uidx maxRec) :
    ∃ j, j ∈ candIdxs df.length sim th uidx ∧ r = mkRec df sim uidx j := by
  have h1 := List.mem_of_mem_take hr
  rcases List.mem_map.mp h1 with ⟨j, hj, hje⟩
  exact ⟨j, (List.perm_insertionSort (rankRel sim uidx) _).mem_iff.mp hj, hje.symm⟩

theorem rankRel_total (sim : ℕ → ℕ → ℚ) (uidx : ℕ) :
    ∀ i j, rankRel sim uidx i j ∨ rankRel sim uidx j i := by
  intro i j
  rcases lt_trichotomy (sim uidx i) (sim uidx j) with h | h | h
  · exact Or.inr (Or.inl h)
  · rcases Nat.le_total i j with hij | hij
    · exact Or.inl (Or.inr ⟨h, hij⟩)
    · exact Or.inr (Or.inr ⟨h.symm, hij⟩)
  · exact Or.inl (Or.inl h)

theorem rankRel_trans (sim : ℕ → ℕ → ℚ) (uidx : ℕ) :
    ∀ i j k, rankRel sim uidx i j → rankRel sim uidx j k → rankRel sim uidx i k := by
  intro i j k hij hjk
  rcases hij with h1 | ⟨h1, h1'⟩ <;> rcases hjk with h2 | ⟨h2, h2'⟩
  · exact Or.inl (lt_trans h2 h1)
  · exact Or.inl (h2 ▸ h1)
  · exact Or.inl (h1 ▸ h2)
  · exact Or.inr ⟨h1.trans h2, h1'.trans h2'⟩

/-- The index list the ranker sorts is `Sorted` for `rankRel` and is a
permutation of the candidate list. -/
theorem sorted_rankRel (df : List Attendee) (sim : ℕ → ℕ → ℚ) (th : ℚ)
    (uidx : ℕ) :
    ((candIdxs df.length sim th uidx).insertionSort (rankRel sim uidx)).Sorted
      (rankRel sim uidx) := by
  haveI : IsTotal ℕ (rankRel sim uidx) := ⟨rankRel_total sim uidx⟩
  haveI : IsTrans ℕ (rankRel sim uidx) :=
    ⟨fun a b c => rankRel_trans sim uidx a b c⟩
  exact List.sorted_insertionSort _ _

/-- Positions of a batch with pairwise-distinct user ids carry distinct
user ids. -/
theorem userId_ne (df : List Attendee)
    (hnd : (df.map (fun a => a.user_id)).Nodup) (i j : ℕ)
    (hi : i < df.length) (hj : j < df.length) (hij : i ≠ j) :
    (df.getD i dA).user_id ≠ (df.getD j dA).user_id := by
  intro h
  apply hij
  have hi' : i < (df.map (fun a => a.user_id)).length := by simpa using hi
  have hj' : j < (df.map (fun a => a.user_id)).length := by simpa using hj
  have hg : (df.map (fun a => a.user_id))[i] = (df.map (fun a => a.user_id))[j] := by
    rw [List.getElem_map, List.getElem_map]
    rw [List.getD_eq_getElem df dA hi, List.getD_eq_getElem df dA hj] at h
    exact h
  exact (List.Nodup.getElem_inj_iff hnd).mp hg

/-- C2: the list produced by `_generate_user_recommendations` never
contains the target, only candidates whose similarity strictly exceeds
the threshold, has at most `max_recommendations` entries, and is sorted
by non-increasing similarity score. -/
theorem claim_C2_theorem (df : List Attendee) (sim : ℕ → ℕ → ℚ) (th : ℚ)
    (uidx maxRec : ℕ) (hu : uidx < df.length)
    (hnd : (df.map (fun a => a.user_id)).Nodup) :
    (∀ r ∈ _generate_user_recommendations df sim th uidx maxRec,
        r.recommended_user_id ≠ (df.getD uidx dA).user_id ∧
        th < r.similarity_score) ∧
    (_generate_user_recommendations df sim th uidx maxRec).length ≤ maxRec ∧
    (_generate_user_recommendations df sim th uidx maxRec).Sorted
      (fun a b => b.similarity_score ≤ a.similarity_score) := by
  refine ⟨?_, ?_, ?_⟩
  · intro r hr
    rcases mem_gur df sim th uidx maxRec r hr with ⟨j, hjc, rfl⟩
    rcases (mem_candIdxs df.length sim th uidx j).mp hjc with ⟨hjn, hjne, hjth⟩
    constructor
    · show (df.getD j dA).user_id ≠ (df.getD uidx dA).user_id
      exact userId_ne df hnd j uidx hjn hu hjne
    · exact hjth
  · exact List.length_take_le maxRec _
  · have hs := sorted_rankRel df sim th uidx
    have himp : ∀ {a b : ℕ}, rankRel sim uidx a b →
        (mkRec df sim uidx b).similarity_score ≤
          (mkRec df sim uidx a).similarity_score := by
      intro a b hab
      rcases hab with h | ⟨h, _⟩
      · exact le_of_lt h
      · exact le_of_eq h.symm
    exact (List.pairwise_map.mpr (hs.imp himp)).sublist (List.take_sublist maxRec _)

/-- The two-attendee batch used by the C2 witness. -/
def dfC2 : List Attendee :=
  [{ user_id := 1, name := "A", job_title := "", company := "", industry := ""
     bio := "", experience_years := 0, interests := "", goals := "" },
   { user_id := 2, name := "B", job_title := "", company := "", industry := ""
     bio := "", experience_years := 0, interests := "", goals := "" }]

/-- The similarity matrix used by the C2 witness. -/
def simC2 : ℕ → ℕ → ℚ := fun i j => if i = j then 1 else 1/2

/-- Witness for C2 at a concrete two-attendee batch. -/
theorem claim_C2_witness :
    (0 < dfC2.length) ∧ ((dfC2.map (fun a => a.user_id)).Nodup) ∧
    ((∀ r ∈ _generate_user_recommendations dfC2 simC2 (1/10) 0 10,
        r.recommended_user_id ≠ (dfC2.getD 0 dA).user_id ∧
        (1 : ℚ)/10 < r.similarity_score) ∧
      (_generate_user_recommendations dfC2 simC2 (1/10) 0 10).length ≤ 10 ∧
      (_generate_user_recommendations dfC2 simC2 (1/10) 0 10).Sorted
        (fun a b => b.similarity_score ≤ a.similarity_score)) :=
  ⟨by decide, by decide,
    claim_C2_theorem dfC2 simC2 (1/10) 0 10 (by decide) (by decide)⟩

/-- In a batch whose user ids are strictly increasing, position order is
id order. -/
theorem userId_lt (df : List Attendee)
    (hmono : (df.map (fun a => a.user_id)).Pairwise (fun a b => a < b))
    (i j : ℕ) (hi : i < df.length) (hj : j < df.length) (hij : i < j) :
    (df.getD i dA).user_id < (df.getD j dA).user_id := by
  have hi' : i < (df.map (fun a => a.user_id)).length := by simpa using hi
  have hj' : j < (df.map (fun a => a.user_id)).length := by simpa using hj
  have h := List.pairwise_iff_get.mp hmono ⟨i, hi'⟩ ⟨j, hj'⟩ (Fin.mk_lt_mk.mpr hij)
  rw [List.get_eq_getElem, List.get_eq_getElem, List.getElem_map,
    List.getElem_map] at h
  rw [List.getD_eq_getElem df dA hi, List.getD_eq_getElem df dA hj]
  exact h

/-- C3 (amended): Python's `list.sort` is stable, so equal-score
candidates stay in batch-position order; when the batch happens to be
ordered by ascending user id, equal-score candidates are therefore
returned in ascending candidate-id order. -/
theorem claim_C3_theorem (df : List Attendee) (sim : ℕ → ℕ → ℚ) (th : ℚ)
    (uidx maxRec : ℕ)
    (hmono : (df.map (fun a => a.user_id)).Pairwise (fun a b => a < b)) :
    (_generate_user_recommendations df sim th uidx maxRec).Pairwise
      (fun r1 r2 => r1.similarity_score = r2.similarity_score →
        r1.recommended_user_id < r2.recommended_user_id) := by
  have hs := sorted_rankRel df sim th uidx
  have hnd : ((candIdxs df.length sim th uidx).insertionSort
      (rankRel sim uidx)).Nodup :=
    (List.perm_insertionSort (rankRel sim uidx) _).symm.nodup
      (List.Nodup.filter _ (List.nodup_range df.length))
  have hcomb := hs.and hnd
  have hidx : ((candIdxs df.length sim th uidx).insertionSort
      (rankRel sim uidx)).Pairwise (fun i j =>
        (mkRec df sim uidx i).similarity_score =
            (mkRec df sim uidx j).similarity_score →
          (mkRec df sim uidx i).recommended_user_id <
            (mkRec df sim uidx j).recommended_user_id) := by
    refine List.Pairwise.imp_of_mem (fun ha hb hab => ?_) hcomb
    rename_i i j
    intro hscore
    have hi := (mem_candIdxs df.length sim th uidx i).mp
      ((List.perm_insertionSort (rankRel sim uidx) _).mem_iff.mp ha)
    have hj := (mem_candIdxs df.length sim th uidx j).mp
      ((List.perm_insertionSort (rankRel sim uidx) _).mem_iff.mp hb)
    have hij : i < j := by
      rcases hab.1 with h | ⟨_, hle⟩
      · exact absurd hscore (ne_of_gt h)
      · exact lt_of_le_of_ne hle hab.2
    exact userId_lt df hmono i j hi.1 hj.1 hij
  exact (List.pairwise_map.mpr hidx).sublist (List.take_sublist maxRec _)

/-- The three-attendee batch for the C3 counterexample: equal pairwise
similarities, with the batch listing id 3 before id 2. -/
def dfC3 : List Attendee :=
  [{ user_id := 1, name := "", job_title := "", company := "", industry := ""
     bio := "", experience_years := 0, interests := "", goals := "" },
   { user_id := 3, name := "", job_title := "", company := "", industry := ""
     bio := "", experience_years := 0, interests := "", goals := "" },
   { user_id := 2, name := "", job_title := "", company := "", industry := ""
     bio := "", experience_years := 0, interests := "", goals := "" }]

/-- The similarity matrix for the C3 counterexample: every distinct pair
scores `1/2`. -/
def simC3 : ℕ → ℕ → ℚ := fun i j => if i = j then 1 else 1/2

/-- C3 counterexample: for target id 1, candidates id 3 and id 2 tie at
score `1/2`, yet the ranker returns id 3 *before* id 2 — the stable sort
keeps batch order, so the tie-break is not by ascending candidate id. -/
theorem claim_C3_counterexample :
    ((_generate_user_recommendations dfC3 simC3 (1/10) 0 10).map
        (fun r => r.recommended_user_id)) = [3, 2] ∧
    ((_generate_user_recommendations dfC3 simC3 (1/10) 0 10).map
        (fun r => r.similarity_score)) = [1/2, 1/2] ∧
    ¬ (3 : ℤ) < 2 :=
  ⟨of_decide_eq_true (by with_unfolding_all rfl),
    of_decide_eq_true (by with_unfolding_all rfl), by decide⟩

/-- Witness for the amended C3 at a concrete id-sorted batch. -/
theorem claim_C3_witness :
    ((dfC2.map (fun a => a.user_id)).Pairwise (fun a b => a < b)) ∧
    (_generate_user_recommendations dfC2 simC2 (1/10) 0 10).Pairwise
      (fun r1 r2 => r1.similarity_score = r2.similarity_score →
        r1.recommended_user_id < r2.recommended_user_id) :=
  ⟨by decide, claim_C3_theorem dfC2 simC2 (1/10) 0 10 (by decide)⟩

/-!  ### Insufficient input (claim C7)  -/

/-- C7 (amended): `generate_recommendations` returns `[]` without
signalling an error for a batch of fewer than 2 attendees, and for every
requested *non-zero* target id absent from the batch.  (A requested
target id of `0` is Python-falsy, so the source treats it like "no
target" and generates recommendations for every attendee.) -/
theorem claim_C7_theorem (df : List Attendee) (sim : ℕ → ℕ → ℚ) (th : ℚ)
    (target : Option ℤ) (maxRec : ℕ) :
    (df.length < 2 → generate_recommendations df sim th target maxRec = []) ∧
    (∀ t, target = some t → t ≠ 0 → (∀ a ∈ df, a.user_id ≠ t) →
      generate_recommendations df sim th target maxRec = []) := by
  constructor
  · intro h
    simp [generate_recommendations, h]
  · intro t ht ht0 habs
    subst ht
    unfold generate_recommendations
    by_cases hlen : df.length < 2
    · simp [hlen]
    · have hfind : df.findIdx? (fun a => a.user_id = t) = none := by
        rw [List.findIdx?_eq_none_iff]
        intro a ha
        simpa using habs a ha
      simp [hlen, ht0, hfind]

/-- The two-attendee batch for C7: ids 1 and 2, empty profiles. -/
def dfC7 : List Attendee :=
  [{ user_id := 1, name := "", job_title := "", company := "", industry := ""
     bio := "", experience_years := 0, interests := "", goals := "" },
   { user_id := 2, name := "", job_title := "", company := "", industry := ""
     bio := "", experience_years := 0, interests := "", goals := "" }]

/-- C7 counterexample: the requested target id `0` is not present in the
batch, yet `generate_recommendations` does *not* return the empty list —
the Python-falsy guard `if target_user_id:` routes id `0` to the
generate-for-all branch, which produces two recommendations here. -/
theorem claim_C7_counterexample :
    (∀ a ∈ dfC7, a.user_id ≠ 0) ∧
    (generate_recommendations dfC7 simC3 (1/10) (some 0) 10).length = 2 ∧
    generate_recommendations dfC7 simC3 (1/10) (some 0) 10 ≠ [] :=
  ⟨by decide, of_decide_eq_true (by with_unfolding_all rfl),
    of_decide_eq_true (by with_unfolding_all rfl)⟩

/-- Witness for C7: a one-attendee batch with an absent non-zero target. -/
theorem claim_C7_witness :
    ([dA].length < 2) ∧ ((5 : ℤ) ≠ 0) ∧ (∀ a ∈ [dA], a.user_id ≠ 5) ∧
    generate_recommendations [dA] simC3 (1/10) (some 5) 10 = [] :=
  ⟨by decide, by decide, by decide,
    (claim_C7_theorem [dA] simC3 (1/10) (some 5) 10).1 (by decide)⟩

/-!  ### Graph edges vs. recommendation threshold (claim C4)  -/

theorem userId_inj (df : List Attendee)
    (hnd : (df.map (fun a => a.user_id)).Nodup) (i j : ℕ)
    (hi : i < df.length) (hj : j < df.length)
    (h : (df.getD i dA).user_id = (df.getD j dA).user_id) : i = j := by
  by_contra hne
  exact userId_ne df hnd i j hi hj hne h

/-- Membership in the edge list built by `create_network_graph`. -/
theorem mem_edges_iff (df : List Attendee) (sim : ℕ → ℕ → ℚ)
    (e : ℤ × ℤ × ℚ) (h2 : 2 ≤ df.length) :
    e ∈ (create_network_graph df sim).edges ↔
      ∃ i j, i < df.length ∧ j < df.length ∧ i < j ∧ 3/10 < sim i j ∧
        e = ((df.getD i dA).user_id, (df.getD j dA).user_id, sim i j) := by
  unfold create_network_graph
  rw [if_neg (by omega)]
  simp only [List.mem_flatMap, List.mem_filterMap, List.mem_filter,
    List.mem_range, decide_eq_true_eq, Option.ite_none_right_eq_some,
    Option.some_inj]
  constructor
  · rintro ⟨i, hi, j, ⟨hj, hlt⟩, hth, he⟩
    exact ⟨i, j, hi, hj, hlt, hth, he.symm⟩
  · rintro ⟨i, j, hi, hj, hlt, hth, he⟩
    exact ⟨i, hi, j, ⟨hj, hlt⟩, hth, he.symm⟩

/-- C4: an undirected edge joins attendees `i` and `j` exactly when
`sim[i][j] > 0.3`, and then its weight is `sim[i][j]`; every attendee of
the batch is a node; and a pair at similarity `0.25` gets no edge while
still passing the recommendation threshold `0.1` — the two thresholds
are independent. -/
theorem claim_C4_theorem (df : List Attendee) (sim : ℕ → ℕ → ℚ) (i j : ℕ)
    (hi : i < df.length) (hj : j < df.length) (hij : i ≠ j)
    (hnd : (df.map (fun a => a.user_id)).Nodup)
    (hsym : ∀ a b, sim a b = sim b a) (h2 : 2 ≤ df.length) :
    (∀ w, hasEdgeW (create_network_graph df sim) (df.getD i dA).user_id
        (df.getD j dA).user_id w ↔ (3/10 < sim i j ∧ w = sim i j)) ∧
    (df.getD i dA).user_id ∈ (create_network_graph df sim).nodes ∧
    (sim i j = 1/4 →
      (¬ ∃ w, hasEdgeW (create_network_graph df sim) (df.getD i dA).user_id
          (df.getD j dA).user_id w) ∧
      j ∈ candIdxs df.length sim (1/10) i) := by
  have hEdge : ∀ w, hasEdgeW (create_network_graph df sim)
      (df.getD i dA).user_id (df.getD j dA).user_id w ↔
      (3/10 < sim i j ∧ w = sim i j) := by
    intro w
    constructor
    · rintro (hmem | hmem)
      · rcases (mem_edges_iff df sim _ h2).mp hmem with
          ⟨a, b, ha, hb, hab, hth, he⟩
        have h1 : (df.getD i dA).user_id = (df.getD a dA).user_id := by
          have := congrArg Prod.fst he; simpa using this
        have h2' : (df.getD j dA).user_id = (df.getD b dA).user_id := by
          have := congrArg (fun p => p.2.1) he; simpa using this
        have hw : w = sim a b := by
          have := congrArg (fun p => p.2.2) he; simpa using this
        have hia : i = a := userId_inj df hnd i a hi ha h1
        have hjb : j = b := userId_inj df hnd j b hj hb h2'
        subst hia; subst hjb
        exact ⟨hth, hw⟩
      · rcases (mem_edges_iff df sim _ h2).mp hmem with
          ⟨a, b, ha, hb, hab, hth, he⟩
        have h1 : (df.getD j dA).user_id = (df.getD a dA).user_id := by
          have := congrArg Prod.fst he; simpa using this
        have h2' : (df.getD i dA).user_id = (df.getD b dA).user_id := by
          have := congrArg (fun p => p.2.1) he; simpa using this
        have hw : w = sim a b := by
          have := congrArg (fun p => p.2.2) he; simpa using this
        have hja : j = a := userId_inj df hnd j a hj ha h1
        have hib : i = b := userId_inj df hnd i b hi hb h2'
        subst hja; subst hib
        exact ⟨by rw [hsym i j]; exact hth, by rw [hsym i j]; exact hw⟩
    · rintro ⟨hth, rfl⟩
      rcases Nat.lt_or_ge i j with hlt | hge
      · exact Or.inl ((mem_edges_iff df sim _ h2).mpr
          ⟨i, j, hi, hj, hlt, hth, rfl⟩)
      · have hlt : j < i := lt_of_le_of_ne hge (Ne.symm hij)
        refine Or.inr ((mem_edges_iff df sim _ h2).mpr
          ⟨j, i, hj, hi, hlt, ?_, ?_⟩)
        · rw [hsym j i]; exact hth
        · rw [hsym j i]
  refine ⟨hEdge, ?_, ?_⟩
  · unfold create_network_graph
    rw [if_neg (by omega)]
    have : df.getD i dA ∈ df := by
      rw [List.getD_eq_getElem df dA hi]
      exact List.getElem_mem hi
    exact List.mem_map_of_mem (fun a => a.user_id) this
  · intro hq
    constructor
    · rintro ⟨w, hw⟩
      have := (hEdge w).mp hw
      rw [hq] at this
      have h14 : ¬ ((3 : ℚ)/10 < 1/4) := by norm_num
      exact h14 this.1
    · refine (mem_candIdxs df.length sim (1/10) i j).mpr
        ⟨hj, Ne.symm hij, ?_⟩
      rw [hq]; norm_num

/-- The symmetric similarity matrix for the C4 witness: distinct pairs
score `0.25`. -/
def simC4 : ℕ → ℕ → ℚ := fun i j => if i = j then 1 else 1/4

theorem simC4_symm : ∀ a b, simC4 a b = simC4 b a := by
  intro a b
  unfold simC4
  by_cases h : a = b
  · subst h; rfl
  · rw [if_neg h, if_neg (fun hba => h hba.symm)]

/-- Witness for C4 at a concrete two-attendee batch with pairwise
similarity `0.25`. -/
theorem claim_C4_witness :
    (0 < dfC7.length) ∧ (1 < dfC7.length) ∧ ((0 : ℕ) ≠ 1) ∧
    ((dfC7.map (fun a => a.user_id)).Nodup) ∧ (2 ≤ dfC7.length) ∧
    ((∀ w, hasEdgeW (create_network_graph dfC7 simC4) 1 2 w ↔
        (3/10 < simC4 0 1 ∧ w = simC4 0 1)) ∧
      (1 : ℤ) ∈ (create_network_graph dfC7 simC4).nodes ∧
      (simC4 0 1 = 1/4 →
        (¬ ∃ w, hasEdgeW (create_network_graph dfC7 simC4) 1 2 w) ∧
        1 ∈ candIdxs dfC7.length simC4 (1/10) 0)) :=
  ⟨by decide, by decide, by decide, by decide, by decide,
    claim_C4_theorem dfC7 simC4 0 1 (by decide) (by decide) (by decide)
      (by decide) simC4_symm (by decide)⟩

/-!  ### Cluster assembly and statistics (claims C5 and C6)  -/

/-- Membership in the cluster list of `_create_clusters`. -/
theorem mem_create_clusters (m : List (ℤ × ℕ)) (k : ℕ) (cl : ClusterL) :
    cl ∈ _create_clusters m k ↔
      cl.cluster_id ∈ clusterIds m ∧
      cl.members = clusterMembers m cl.cluster_id ∧
      cl.size = cl.members.length ∧ k ≤ cl.size := by
  unfold _create_clusters
  rw [List.mem_filterMap]
  constructor
  · rintro ⟨c, hc, hsome⟩
    rw [Option.ite_none_right_eq_some, Option.some_inj] at hsome
    rcases hsome with ⟨hk, hcl⟩
    subst hcl
    exact ⟨hc, rfl, rfl, hk⟩
  · rintro ⟨hc, hmem, hsz, hk⟩
    refine ⟨cl.cluster_id, hc, ?_⟩
    rw [Option.ite_none_right_eq_some, Option.some_inj]
    have hk' : k ≤ (clusterMembers m cl.cluster_id).length := by
      rw [← hmem, ← hsz]; exact hk
    refine ⟨hk', ?_⟩
    cases cl with
    | mk cid sz mems =>
      simp only at hmem hsz ⊢
      rw [← hmem, hsz, hmem]

/-- The size of a community equals the multiplicity of its id among the
mapping's values. -/
theorem clusterMembers_length (m : List (ℤ × ℕ)) (c : ℕ) :
    (clusterMembers m c).length = (m.map (fun p => p.2)).count c := by
  unfold clusterMembers
  rw [List.length_map, ← List.countP_eq_length_filter]
  show m.countP (fun p => decide (p.2 = c)) =
    (m.map (fun p => p.2)).countP (fun x => x == c)
  rw [List.countP_map]
  congr 1

/-- The community sizes of *all* detected communities sum to the number
of mapped attendees: every mapping entry is counted in exactly one
community, filtered or not. -/
theorem sizes_sum (m : List (ℤ × ℕ)) :
    (((clusterIds m).map (fun c => (clusterMembers m c).length))).sum
      = m.length := by
  unfold clusterIds
  have h1 : ((m.map (fun p => p.2)).dedup.map
      (fun c => (clusterMembers m c).length)).sum =
      ((m.map (fun p => p.2)).dedup.map
        (fun c => (m.map (fun p => p.2)).count c)).sum := by
    congr 1
    exact List.map_congr_left (fun c _ => clusterMembers_length m c)
  rw [h1, List.sum_map_count_dedup_eq_length, List.length_map]

theorem init_le_foldl_max (t : List ℕ) (a : ℕ) : a ≤ t.foldl max a := by
  induction t generalizing a with
  | nil => simp
  | cons b t ih => exact le_trans (le_max_left a b) (ih (max a b))

theorem mem_le_foldl_max (t : List ℕ) : ∀ (a : ℕ), ∀ x ∈ t, x ≤ t.foldl max a := by
  induction t with
  | nil => intro a x hx; cases hx
  | cons b t ih =>
    intro a x hx
    rcases List.mem_cons.mp hx with rfl | hx
    · exact le_trans (le_max_right a x) (init_le_foldl_max t (max a x))
    · exact ih (max a b) x hx

theorem foldl_min_le_init (t : List ℕ) (a : ℕ) : t.foldl min a ≤ a := by
  induction t generalizing a with
  | nil => simp
  | cons b t ih => exact le_trans (ih (min a b)) (min_le_left a b)

theorem foldl_min_le_mem (t : List ℕ) : ∀ (a : ℕ), ∀ x ∈ t, t.foldl min a ≤ x := by
  induction t with
  | nil => intro a x hx; cases hx
  | cons b t ih =>
    intro a x hx
    rcases List.mem_cons.mp hx with rfl | hx
    · exact le_trans (foldl_min_le_init t (min a x)) (min_le_right a x)
    · exact ih (min a b) x hx

/-- C5: every cluster returned by `_create_clusters` has size at least
`min_cluster_size` and keeps its community id and member list unchanged
(dropping, not relabeling), while the statistics of
`_calculate_cluster_stats` — community count, size sum, largest and
smallest and rounded average size — range over *all* detected
communities, unfiltered by `min_cluster_size`. -/
theorem claim_C5_theorem (G : NGraph) (m : List (ℤ × ℕ)) (k : ℕ) :
    (∀ cl ∈ _create_clusters m k,
        k ≤ cl.size ∧ cl.size = cl.members.length ∧
        cl.cluster_id ∈ clusterIds m ∧
        cl.members = clusterMembers m cl.cluster_id) ∧
    (_calculate_cluster_stats G m).num_clusters =
      (m.map (fun p => p.2)).toFinset.card ∧
    (((clusterIds m).map (fun c => (clusterMembers m c).length)).sum
      = m.length) ∧
    (∀ c ∈ clusterIds m,
        (clusterMembers m c).length ≤
          (_calculate_cluster_stats G m).largest_cluster_size ∧
        (_calculate_cluster_stats G m).smallest_cluster_size ≤
          (clusterMembers m c).length) ∧
    (m ≠ [] → (_calculate_cluster_stats G m).avg_cluster_size =
      roundTo 2 ((m.length : ℚ) / ((clusterIds m).length : ℚ))) := by
  refine ⟨?_, ?_, sizes_sum m, ?_, ?_⟩
  · intro cl hcl
    rcases (mem_create_clusters m k cl).mp hcl with ⟨h1, h2, h3, h4⟩
    exact ⟨h4, h3, h1, h2⟩
  · show (clusterIds m).length = _
    rw [List.card_toFinset]
    rfl
  · intro c hc
    have hmem : (clusterMembers m c).length ∈
        (clusterIds m).map (fun c => (clusterMembers m c).length) :=
      List.mem_map_of_mem _ hc
    obtain ⟨a, t, hs⟩ : ∃ a t,
        (clusterIds m).map (fun c => (clusterMembers m c).length) = a :: t := by
      cases hsz : (clusterIds m).map (fun c => (clusterMembers m c).length) with
      | nil => rw [hsz] at hmem; cases hmem
      | cons a t => exact ⟨a, t, rfl⟩
    rw [hs] at hmem
    constructor
    · show _ ≤ (match (clusterIds m).map (fun c => (clusterMembers m c).length) with
        | [] => 0 | h :: t => t.foldl max h)
      rw [hs]
      rcases List.mem_cons.mp hmem with h | h
      · rw [h]; exact init_le_foldl_max t a
      · exact mem_le_foldl_max t a _ h
    · show (match (clusterIds m).map (fun c => (clusterMembers m c).length) with
        | [] => 0 | h :: t => t.foldl min h) ≤ _
      rw [hs]
      rcases List.mem_cons.mp hmem with h | h
      · rw [h]; exact foldl_min_le_init t a
      · exact foldl_min_le_mem t a _ h
  · intro hm
    have hne2 : (clusterIds m) ≠ [] := by
      unfold clusterIds
      rw [Ne, List.dedup_eq_nil, List.map_eq_nil_iff]
      exact hm
    obtain ⟨a, t, hs⟩ : ∃ a t,
        (clusterIds m).map (fun c => (clusterMembers m c).length) = a :: t := by
      cases hsz : (clusterIds m).map (fun c => (clusterMembers m c).length) with
      | nil =>
        rw [List.map_eq_nil_iff] at hsz
        exact absurd hsz hne2
      | cons a t => exact ⟨a, t, rfl⟩
    show (match (clusterIds m).map (fun c => (clusterMembers m c).length) with
      | [] => (0 : ℚ)
      | _ => roundTo 2
          ((((clusterIds m).map (fun c => (clusterMembers m c).length)).sum : ℚ) /
            (((clusterIds m).map (fun c => (clusterMembers m c).length)).length : ℚ)))
      = _
    rw [hs]
    show roundTo 2 (((a :: t : List ℕ).sum : ℚ) / ((a :: t : List ℕ).length : ℚ)) = _
    rw [← hs, sizes_sum m, List.length_map]

/-- Witness graph for C5: three nodes, no edges. -/
def GW : NGraph := { nodes := [1, 2, 3], edges := [] }

/-- Witness mapping for C5: community 0 of size 2, community 1 of size 1
(the latter is dropped by `min_cluster_size = 2` but still counted by the
statistics). -/
def mW : List (ℤ × ℕ) := [(1, 0), (2, 0), (3, 1)]

/-- Witness for C5 at a concrete mapping with one undersized community. -/
theorem claim_C5_witness :
    mW ≠ [] ∧
    (∀ cl ∈ _create_clusters mW 2,
        2 ≤ cl.size ∧ cl.size = cl.members.length ∧
        cl.cluster_id ∈ clusterIds mW ∧
        cl.members = clusterMembers mW cl.cluster_id) ∧
    (_calculate_cluster_stats GW mW).num_clusters =
      (mW.map (fun p => p.2)).toFinset.card ∧
    (_calculate_cluster_stats GW mW).avg_cluster_size =
      roundTo 2 ((mW.length : ℚ) / ((clusterIds mW).length : ℚ)) :=
  ⟨by decide, (claim_C5_theorem GW mW 2).1, (claim_C5_theorem GW mW 2).2.1,
    (claim_C5_theorem GW mW 2).2.2.2.2 (by decide)⟩

/-- C6: the modularity statistic is `0.0` for a single-community
partition (the `len(communities) > 1` guard skips the computation) and
for an edgeless graph (the `networkx` call divides by zero and the bare
`except` degrades it to `0.0`); in both cases the statistics function
returns normally. -/
theorem claim_C6_theorem (G : NGraph) (m : List (ℤ × ℕ)) :
    ((clusterIds m).length = 1 →
      (_calculate_cluster_stats G m).modularity = 0) ∧
    (G.edges = [] → (_calculate_cluster_stats G m).modularity = 0) := by
  have hround : roundTo 3 (0 : ℚ) = 0 := by
    unfold roundTo rhe
    norm_num
  constructor
  · intro h1
    have hlen : ¬ (1 < ((clusterIds m).map (clusterMembers m)).length) := by
      rw [List.length_map, h1]
      omega
    have hms : modularityStat G m = 0 := by
      unfold modularityStat
      rw [if_neg hlen]
    show roundTo 3 (modularityStat G m) = 0
    rw [hms, hround]
  · intro hE
    have hw0 : edgeWeightSum G = 0 := by simp [edgeWeightSum, hE]
    have hms : modularityStat G m = 0 := by
      unfold modularityStat
      by_cases hlen : 1 < ((clusterIds m).map (clusterMembers m)).length
      · rw [if_pos hlen]
        unfold nx_modularity
        by_cases hp : isPartition G ((clusterIds m).map (clusterMembers m))
        · rw [if_neg (not_not_intro hp), if_pos hw0]
        · rw [if_pos hp]
      · rw [if_neg hlen]
    show roundTo 3 (modularityStat G m) = 0
    rw [hms, hround]

/-- A single-community graph with one edge, for the C6 witness. -/
def G6a : NGraph := { nodes := [1, 2], edges := [(1, 2, 1/2)] }

/-- Its single-community mapping. -/
def m6a : List (ℤ × ℕ) := [(1, 0), (2, 0)]

/-- An edgeless two-community graph, for the C6 witness. -/
def G6b : NGraph := { nodes := [1, 2], edges := [] }

/-- Its two-community mapping. -/
def m6b : List (ℤ × ℕ) := [(1, 0), (2, 1)]

/-- Witness for C6 at a one-community graph and at an edgeless graph. -/
theorem claim_C6_witness :
    ((clusterIds m6a).length = 1) ∧
    (_calculate_cluster_stats G6a m6a).modularity = 0 ∧
    (G6b.edges = ([] : List (ℤ × ℤ × ℚ))) ∧
    (_calculate_cluster_stats G6b m6b).modularity = 0 :=
  ⟨by decide, (claim_C6_theorem G6a m6a).1 (by decide), rfl,
    (claim_C6_theorem G6b m6b).2 rfl⟩

/-!  ### Explanation clauses (claims C8, C9, C10)  -/

/-- Two append-strings with incompatible prefixes are distinct. -/
theorem app_ne_app (p q x y : String) (hq : p.data.length ≤ q.data.length)
    (h : q.data.take p.data.length ≠ p.data) : p ++ x ≠ q ++ y := by
  intro he
  apply h
  have hd : p.data ++ x.data = q.data ++ y.data := by
    have := congrArg String.data he
    simpa [String.data_append] using this
  have h1 : (p.data ++ x.data).take p.data.length = p.data :=
    List.take_left p.data x.data
  have h2 : (q.data ++ y.data).take p.data.length =
      q.data.take p.data.length := List.take_append_of_le_length hq
  rw [hd, h2] at h1
  exact h1

/-- An append-string with a prefix incompatible with the constant `c`
differs from `c`. -/
theorem app_ne_const (p x c : String) (hq : p.data.length ≤ c.data.length)
    (h : c.data.take p.data.length ≠ p.data) : p ++ x ≠ c := by
  rw [← String.append_empty c]
  exact app_ne_app p c x "" hq h

theorem mem_ite_singleton {c : Prop} [Decidable c] {s a : String}
    (h : a ∈ (if c then [s] else [])) : c ∧ a = s := by
  by_cases hc : c
  · rw [if_pos hc] at h
    exact ⟨hc, List.mem_singleton.mp h⟩
  · rw [if_neg hc] at h
    cases h

/-- The fallback clause is one of three fixed sentences. -/
theorem fallbackReason_cases (s : ℚ) :
    fallbackReason s = "Strong profile compatibility" ∨
    fallbackReason s = "Good profile match" ∨
    fallbackReason s = "Potential networking opportunity" := by
  unfold fallbackReason
  split_ifs <;> simp

/-- Any clause of the pre-fallback `reasons` list has one of five shapes,
each tied to its firing condition. -/
theorem mem_baseReasons_cases (u1 u2 : Attendee) (a : String)
    (h : a ∈ baseReasons u1 u2) :
    ((u1.industry ≠ "" ∧ u1.industry = u2.industry) ∧
      a = "Both work in " ++ u1.industry) ∨
    ((u1.company ≠ "" ∧ u1.company = u2.company) ∧
      a = "Both work at " ++ u1.company) ∨
    (a = "Similar experience levels") ∨
    (∃ z, a = "Shared interests: " ++ z) ∨
    (a = "Complementary networking goals") := by
  unfold baseReasons at h
  rcases List.mem_append.mp h with hX | h5
  · rcases List.mem_append.mp hX with hY | h4
    · rcases List.mem_append.mp hY with hZ | h3
      · rcases List.mem_append.mp hZ with h1 | h2
        · rcases mem_ite_singleton h1 with ⟨hc, ha⟩
          exact Or.inl ⟨hc, ha⟩
        · rcases mem_ite_singleton h2 with ⟨hc, ha⟩
          exact Or.inr (Or.inl ⟨hc, ha⟩)
      · exact Or.inr (Or.inr (Or.inl (mem_ite_singleton h3).2))
    · exact Or.inr (Or.inr (Or.inr (Or.inl ⟨_, (mem_ite_singleton h4).2⟩)))
  · exact Or.inr (Or.inr (Or.inr (Or.inr (mem_ite_singleton h5).2)))

/-- C10: the clause `"Both work in {industry}"` is emitted iff the source
attendee's industry is non-empty and *exactly* (case-sensitively) equal
to the candidate's, and likewise `"Both work at {company}"` for the
company field. -/
theorem claim_C10_theorem (u1 u2 : Attendee) (s : ℚ) :
    (("Both work in " ++ u1.industry) ∈ explanationReasons u1 u2 s ↔
      (u1.industry ≠ "" ∧ u1.industry = u2.industry)) ∧
    (("Both work at " ++ u1.company) ∈ explanationReasons u1 u2 s ↔
      (u1.company ≠ "" ∧ u1.company = u2.company)) := by
  constructor
  · constructor
    · intro hmem
      unfold explanationReasons at hmem
      by_cases hb : baseReasons u1 u2 = []
      · rw [if_pos hb] at hmem
        have heq := List.mem_singleton.mp hmem
        rcases fallbackReason_cases s with hf | hf | hf <;> rw [hf] at heq <;>
          exact absurd heq (app_ne_const _ _ _ (by decide) (by decide))
      · rw [if_neg hb] at hmem
        rcases mem_baseReasons_cases u1 u2 _ hmem with
          ⟨hc, _⟩ | ⟨_, ha⟩ | ha | ⟨z, ha⟩ | ha
        · exact hc
        · exact absurd ha (app_ne_app _ _ _ _ (by decide) (by decide))
        · exact absurd ha (app_ne_const _ _ _ (by decide) (by decide))
        · exact absurd ha (app_ne_app _ _ _ _ (by decide) (by decide))
        · exact absurd ha (app_ne_const _ _ _ (by decide) (by decide))
    · intro hc
      have hclause : ("Both work in " ++ u1.industry) ∈ baseReasons u1 u2 := by
        unfold baseReasons
        rw [if_pos hc]
        exact List.mem_append_left _ (List.mem_append_left _
          (List.mem_append_left _ (List.mem_append_left _
            (List.mem_singleton_self _))))
      unfold explanationReasons
      rw [if_neg (List.ne_nil_of_mem hclause)]
      exact hclause
  · constructor
    · intro hmem
      unfold explanationReasons at hmem
      by_cases hb : baseReasons u1 u2 = []
      · rw [if_pos hb] at hmem
        have heq := List.mem_singleton.mp hmem
        rcases fallbackReason_cases s with hf | hf | hf <;> rw [hf] at heq <;>
          exact absurd heq (app_ne_const _ _ _ (by decide) (by decide))
      · rw [if_neg hb] at hmem
        rcases mem_baseReasons_cases u1 u2 _ hmem with
          ⟨_, ha⟩ | ⟨hc, _⟩ | ha | ⟨z, ha⟩ | ha
        · exact absurd ha (app_ne_app _ _ _ _ (by decide) (by decide))
        · exact hc
        · exact absurd ha (app_ne_const _ _ _ (by decide) (by decide))
        · exact absurd ha (app_ne_app _ _ _ _ (by decide) (by decide))
        · exact absurd ha (app_ne_const _ _ _ (by decide) (by decide))
    · intro hc
      have hclause : ("Both work at " ++ u1.company) ∈ baseReasons u1 u2 := by
        unfold baseReasons
        rw [if_pos hc]
        exact List.mem_append_left _ (List.mem_append_left _
          (List.mem_append_left _ (List.mem_append_right _
            (List.mem_singleton_self _))))
      unfold explanationReasons
      rw [if_neg (List.ne_nil_of_mem hclause)]
      exact hclause

/-- C8: a non-empty case-folded interest intersection yields a
`"Shared interests: …"` clause in the reasons list, listing at most 3
shared interests, and the raw mutual-interest list carried by the
recommendation has at most 3 elements, all drawn from the
intersection. -/
theorem claim_C8_theorem (u1 u2 : Attendee) (s : ℚ)
    (hint : ∃ t, t ∈ tagSet u1.interests ∧ t ∈ tagSet u2.interests) :
    (∃ c ∈ explanationReasons u1 u2 s, ∃ listed,
        c = "Shared interests: " ++ String.intercalate ", " listed ∧
        listed ≠ [] ∧ listed.length ≤ 3 ∧
        ∀ x ∈ listed, x ∈ tagSet u1.interests ∧ x ∈ tagSet u2.interests) ∧
    mutualInterests u1 u2 ≠ [] ∧
    (mutualInterests u1 u2).length ≤ 3 ∧
    (∀ x ∈ mutualInterests u1 u2,
      x ∈ tagSet u1.interests ∧ x ∈ tagSet u2.interests) := by
  obtain ⟨t, ht1, ht2⟩ := hint
  have hfil : t ∈ (tagSet u1.interests).filter
      (fun x => x ∈ tagSet u2.interests) :=
    List.mem_filter.mpr ⟨ht1, by simpa using ht2⟩
  have hfne : (tagSet u1.interests).filter
      (fun x => x ∈ tagSet u2.interests) ≠ [] :=
    List.ne_nil_of_mem hfil
  have hmut : mutualInterests u1 u2 ≠ [] := by
    unfold mutualInterests
    intro hcon
    rcases List.take_eq_nil_iff.mp hcon with h | h
    · norm_num at h
    · exact hfne h
  have hmem3 : ∀ x ∈ mutualInterests u1 u2,
      x ∈ tagSet u1.interests ∧ x ∈ tagSet u2.interests := by
    intro x hx
    have hx' := List.mem_of_mem_take hx
    have hm := List.mem_filter.mp hx'
    exact ⟨hm.1, by simpa using hm.2⟩
  have hlen : (mutualInterests u1 u2).length ≤ 3 := List.length_take_le 3 _
  have hclause : ("Shared interests: " ++ String.intercalate ", "
      ((mutualInterests u1 u2).take 2)) ∈ baseReasons u1 u2 := by
    unfold baseReasons
    rw [if_pos hmut]
    exact List.mem_append_left _
      (List.mem_append_right _ (List.mem_singleton_self _))
  refine ⟨⟨_, ?_, (mutualInterests u1 u2).take 2, rfl, ?_, ?_, ?_⟩,
    hmut, hlen, hmem3⟩
  · unfold explanationReasons
    rw [if_neg (List.ne_nil_of_mem hclause)]
    exact hclause
  · intro hcon
    rcases List.take_eq_nil_iff.mp hcon with h | h
    · norm_num at h
    · exact hmut h
  · exact le_trans (List.length_take_le 2 _) (by norm_num)
  · intro x hx
    exact hmem3 x (List.mem_of_mem_take hx)

/-- Attendee with interests tagged `"AI, ML"`, for the C8 witness. -/
def uC8a : Attendee :=
  { user_id := 1, name := "", job_title := "", company := "", industry := ""
    bio := "", experience_years := 0, interests := "AI, ML", goals := "" }

/-- Attendee with interests tagged `"ai"`, for the C8 witness. -/
def uC8b : Attendee :=
  { user_id := 2, name := "", job_title := "", company := "", industry := ""
    bio := "", experience_years := 0, interests := "ai", goals := "" }

/-- Witness for C8: `"AI, ML"` against `"ai"` share the case-folded tag
`"ai"`. -/
theorem claim_C8_witness :
    (∃ t, t ∈ tagSet uC8a.interests ∧ t ∈ tagSet uC8b.interests) ∧
    ((∃ c ∈ explanationReasons uC8a uC8b (1/2), ∃ listed,
        c = "Shared interests: " ++ String.intercalate ", " listed ∧
        listed ≠ [] ∧ listed.length ≤ 3 ∧
        ∀ x ∈ listed, x ∈ tagSet uC8a.interests ∧ x ∈ tagSet uC8b.interests) ∧
      mutualInterests uC8a uC8b ≠ [] ∧
      (mutualInterests uC8a uC8b).length ≤ 3 ∧
      (∀ x ∈ mutualInterests uC8a uC8b,
        x ∈ tagSet uC8a.interests ∧ x ∈ tagSet uC8b.interests)) :=
  ⟨⟨"ai", of_decide_eq_true (by with_unfolding_all rfl),
      of_decide_eq_true (by with_unfolding_all rfl)⟩,
    claim_C8_theorem uC8a uC8b (1/2)
      ⟨"ai", of_decide_eq_true (by with_unfolding_all rfl),
        of_decide_eq_true (by with_unfolding_all rfl)⟩⟩

/-- A directional complementary goal pair, as detected by the source:
the four ordered combinations over the case-folded goal tag sets, with
the job-search tag spelled `"job search"` (a space, as in the source). -/
def goalPair (u o : Attendee) : Prop :=
  ("learn" ∈ tagSet u.goals ∧ "teach" ∈ tagSet o.goals) ∨
  ("teach" ∈ tagSet u.goals ∧ "learn" ∈ tagSet o.goals) ∨
  ("hire" ∈ tagSet u.goals ∧ "job search" ∈ tagSet o.goals) ∨
  ("job search" ∈ tagSet u.goals ∧ "hire" ∈ tagSet o.goals)

instance (u o : Attendee) : Decidable (goalPair u o) := by
  unfold goalPair
  infer_instance

theorem complementaryGoals_ne_nil (u o : Attendee) (h : goalPair u o) :
    complementaryGoals u o ≠ [] := by
  simp only [complementaryGoals]
  rcases h with h | h | h | h
  · rw [if_pos h]
    exact List.ne_nil_of_mem (List.mem_append_left _ (List.mem_append_left _
      (List.mem_append_left _ (List.mem_singleton_self _))))
  · rw [if_pos h]
    exact List.ne_nil_of_mem (List.mem_append_left _ (List.mem_append_left _
      (List.mem_append_right _ (List.mem_singleton_self _))))
  · rw [if_pos h]
    exact List.ne_nil_of_mem (List.mem_append_left _
      (List.mem_append_right _ (List.mem_singleton_self _)))
  · rw [if_pos h]
    exact List.ne_nil_of_mem
      (List.mem_append_right _ (List.mem_singleton_self _))

theorem comp_clause_mem (u o : Attendee) (s : ℚ)
    (h : complementaryGoals u o ≠ []) :
    "Complementary networking goals" ∈ explanationReasons u o s := by
  have hclause : "Complementary networking goals" ∈ baseReasons u o := by
    unfold baseReasons
    rw [if_pos h]
    exact List.mem_append_right _ (List.mem_singleton_self _)
  unfold explanationReasons
  rw [if_neg (List.ne_nil_of_mem hclause)]
  exact hclause

/-- C9 (amended): whenever a recommendation is generated between two
attendees whose goal sets contain a directional complementary pair —
(learn, teach), (teach, learn), (hire, "job search"), ("job search",
hire), matched case-insensitively with the job-search tag written with a
space — it carries a non-empty complementary-goals list and its reason
string includes the clause `"Complementary networking goals"`. -/
theorem claim_C9_theorem (df : List Attendee) (sim : ℕ → ℕ → ℚ) (th : ℚ)
    (uidx oidx maxRec : ℕ) (ho : oidx < df.length)
    (hnd : (df.map (fun a => a.user_id)).Nodup) (r : Rec)
    (hr : r ∈ _generate_user_recommendations df sim th uidx maxRec)
    (hid : r.recommended_user_id = (df.getD oidx dA).user_id)
    (hg : goalPair (df.getD uidx dA) (df.getD oidx dA)) :
    r.complementary_goals ≠ [] ∧
    ∃ parts, r.reason = String.intercalate "; " parts ∧
      "Complementary networking goals" ∈ parts := by
  rcases mem_gur df sim th uidx maxRec r hr with ⟨j, hjc, rfl⟩
  rcases (mem_candIdxs df.length sim th uidx j).mp hjc with ⟨hjn, hjne, hjth⟩
  have hid' : (df.getD j dA).user_id = (df.getD oidx dA).user_id := hid
  have hjo : j = oidx := userId_inj df hnd j oidx hjn ho hid'
  subst hjo
  exact ⟨complementaryGoals_ne_nil _ _ hg,
    explanationReasons (df.getD uidx dA) (df.getD j dA) (sim uidx j), rfl,
    comp_clause_mem _ _ _ (complementaryGoals_ne_nil _ _ hg)⟩

/-- Attendee with goal `"hire"`, for the C9 counterexample. -/
def uHire : Attendee :=
  { user_id := 1, name := "", job_title := "", company := "", industry := ""
    bio := "", experience_years := 0, interests := "", goals := "hire" }

/-- Attendee whose goal tag is literally `"job_search"` (an underscore),
for the C9 counterexample. -/
def uJobSearch : Attendee :=
  { user_id := 2, name := "", job_title := "", company := "", industry := ""
    bio := "", experience_years := 0, interests := "", goals := "job_search" }

/-- C9 counterexample: with the pair read as the literal tokens
`(hire, job_search)`, the claim fails — the source only matches the tag
`'job search'` spelled with a space, so goals `"hire"` and
`"job_search"` produce an *empty* complementary-goals list and no
`"Complementary networking goals"` clause. -/
theorem claim_C9_counterexample :
    "hire" ∈ tagSet uHire.goals ∧
    "job_search" ∈ tagSet uJobSearch.goals ∧
    complementaryGoals uHire uJobSearch = [] ∧
    "Complementary networking goals" ∉
      explanationReasons uHire uJobSearch (1/2) :=
  ⟨of_decide_eq_true (by with_unfolding_all rfl),
    of_decide_eq_true (by with_unfolding_all rfl),
    of_decide_eq_true (by with_unfolding_all rfl),
    of_decide_eq_true (by with_unfolding_all rfl)⟩

/-- The learn/teach batch for the C9 witness: otherwise empty profiles. -/
def dfC9 : List Attendee :=
  [{ user_id := 1, name := "", job_title := "", company := "", industry := ""
     bio := "", experience_years := 0, interests := "", goals := "learn" },
   { user_id := 2, name := "", job_title := "", company := "", industry := ""
     bio := "", experience_years := 0, interests := "", goals := "teach" }]

/-- The recommendation the ranker produces for target position 0 of
`dfC9` under `simC2`. -/
def recC9 : Rec :=
  { user_id := 1, user_name := "", recommended_user_id := 2
    recommended_user_name := "", recommended_user_company := ""
    recommended_user_title := "", similarity_score := 1/2
    confidence_level := "medium"
    reason := "Similar experience levels; Complementary networking goals"
    mutual_interests := [], complementary_goals := ["Learning/Teaching match"] }

/-- Witness for C9: the learn/teach pair above, with the recommendation
between them generated at similarity `1/2`. -/
theorem claim_C9_witness :
    (1 < dfC9.length) ∧ ((dfC9.map (fun a => a.user_id)).Nodup) ∧
    recC9 ∈ _generate_user_recommendations dfC9 simC2 (1/10) 0 10 ∧
    recC9.recommended_user_id = (dfC9.getD 1 dA).user_id ∧
    goalPair (dfC9.getD 0 dA) (dfC9.getD 1 dA) ∧
    (recC9.complementary_goals ≠ [] ∧
      ∃ parts, recC9.reason = String.intercalate "; " parts ∧
        "Complementary networking goals" ∈ parts) :=
  ⟨by decide, by decide,
    of_decide_eq_true (by with_unfolding_all rfl),
    by decide,
    of_decide_eq_true (by with_unfolding_all rfl),
    claim_C9_theorem dfC9 simC2 (1/10) 0 1 10 (by decide) (by decide) recC9
      (of_decide_eq_true (by with_unfolding_all rfl)) (by decide)
      (of_decide_eq_true (by with_unfolding_all rfl))⟩
